import Mathlib

/-!
Verification of the peer-discovery / connection-management core
(`src/network/protocol.cpp` of libbitcoin).

The C++ code is a collection of asynchronous handlers, all of which are
wrapped into a single strand (the "serialization domain"), so the
observable behaviour of the core is the sequence of handler executions
in strand order.  We embed each handler as a pure function on an
explicit state record, and model an execution as a fold of a step
function over a list of events (each event is one handler dispatch,
carrying the data its callback received).  Error codes are modelled as
`Nat` (0 = success, matching `std::error_code`'s boolean test), channels
as opaque `Nat` identifiers, and the 16-byte ip field as an opaque `Nat`
(the core only ever compares ips for equality in the dedup scan; the
pretty-printer is not relevant to any property proved here).
-/

/-- `message::network_address`: only the (ip, port) pair matters to the
core (dedup compares `connection.address.ip == address.ip &&
connection.address.port == address.port`). -/
structure NetworkAddress where
  ip : Nat
  port : Nat
deriving DecidableEq

/-- The dedup key of an address: the (ip, port) pair. -/
def addrKey (a : NetworkAddress) : Nat × Nat := (a.ip, a.port)

/-- `connection_info { message::network_address address; channel_ptr node; }`. -/
structure ConnectionInfo where
  address : NetworkAddress
  node : Nat
deriving DecidableEq

/-- `max_outbound_` is initialised to 8 in the protocol constructor. -/
def max_outbound : Nat := 8

/-- `hosts_filename_` is initialised to "hosts" in the protocol constructor. -/
def hosts_filename : String := "hosts"

/-- Remove the first element satisfying `p` (the effect of
`container.erase(it)` after a linear scan / `std::find`); removing a
missing element is the identity. -/
def eraseFirst (p : α → Bool) : List α → List α
  | [] => []
  | x :: xs => if p x then xs else x :: eraseFirst p xs

/-- State of the protocol object as touched by the connection
maintainer, plus bookkeeping for the asynchronous operations in
flight.  `connections_` and `accepted_channels_` are the two lists of
the C++ class; `pendingFetch` counts outstanding `fetch_address`
callbacks (each will run `attempt_connect`), `pendingConnect` the
addresses with an outstanding `connect` (each will run
`handle_connect`), and `postedTryConnect` the `try_connect` closures
sitting in the strand queue from `strand_.post`. -/
structure ProtocolState where
  connections : List ConnectionInfo
  accepted_channels : List Nat
  pendingFetch : Nat
  pendingConnect : List NetworkAddress
  postedTryConnect : Nat
deriving DecidableEq

/-- The freshly constructed protocol: both lists empty, nothing in flight. -/
def initialState : ProtocolState :=
  { connections := [], accepted_channels := [], pendingFetch := 0,
    pendingConnect := [], postedTryConnect := 0 }

/-- `protocol::try_connect`: if `connections_.size() >= max_outbound_`
return; otherwise the loop `for (i = connections_.size(); i <
max_outbound_; ++i)` issues one `hosts_->fetch_address` per iteration,
i.e. `max_outbound_ - connections_.size()` calls. -/
def try_connect (s : ProtocolState) : ProtocolState :=
  if s.connections.length ≥ max_outbound then s
  else { s with pendingFetch :=
          s.pendingFetch + (max_outbound - s.connections.length) }

/-- `protocol::attempt_connect` (the `fetch_address` callback body): on
fetch error, log and return; if some existing connection has the same
(ip, port), log and `strand_.post(try_connect)`; otherwise issue
`connect(...)` with `handle_connect` bound to this address. -/
def attempt_connect (s : ProtocolState) (ec : Nat)
    (address : NetworkAddress) : ProtocolState :=
  if ec ≠ 0 then s
  else if s.connections.any (fun c =>
      c.address.ip = address.ip ∧ c.address.port = address.port) then
    { s with postedTryConnect := s.postedTryConnect + 1 }
  else
    { s with pendingConnect := s.pendingConnect ++ [address] }

/-- `protocol::handle_connect`: on error, log and
`strand_.post(try_connect)`; on success, `connections_.push_back({address,
node})` (unconditionally — there is no re-check of the bound or of
dedup here) followed by `setup_new_channel` (whose effects: stop/address
subscriptions, a get_address send and the subscriber relay, do not touch
the two lists). -/
def handle_connect (s : ProtocolState) (ec : Nat) (node : Nat)
    (address : NetworkAddress) : ProtocolState :=
  if ec ≠ 0 then { s with postedTryConnect := s.postedTryConnect + 1 }
  else { s with connections := s.connections ++ [⟨address, node⟩] }

/-- `protocol::handle_accept`: on error log only; on success
`accepted_channels_.push_back(node)` and `setup_new_channel`. -/
def handle_accept (s : ProtocolState) (ec : Nat) (node : Nat) : ProtocolState :=
  if ec ≠ 0 then s
  else { s with accepted_channels := s.accepted_channels ++ [node] }

/-- `protocol::channel_stopped`: scan `connections_` for the first entry
whose `node` equals the stopped channel; if found, erase it and call
`try_connect()` directly; then `std::find` the channel in
`accepted_channels_` and erase it if present. -/
def channel_stopped (s : ProtocolState) (which_node : Nat) : ProtocolState :=
  let s1 :=
    if s.connections.any (fun c => c.node = which_node) then
      try_connect { s with
        connections := eraseFirst (fun c => c.node = which_node) s.connections }
    else s
  { s1 with accepted_channels :=
      eraseFirst (fun n => n = which_node) s1.accepted_channels }

/-- `protocol::do_fetch_connection_count` (the body that
`fetch_connection_count` posts into the strand):
`handle_fetch(std::error_code(), connections_.size())` — the handler
receives a success code and the outbound list's size. -/
def do_fetch_connection_count (s : ProtocolState) : Nat × Nat :=
  (0, s.connections.length)

/-- One handler dispatch in the serialization domain.  `fetchResult`,
`connectResult` and `acceptResult` carry the data the asynchronous
operation completed with; `runPosted` is the strand executing a
previously posted `try_connect`; `tryConnect` is the direct dispatch
from `run()`. -/
inductive PEvent where
  | tryConnect
  | runPosted
  | fetchResult (ec : Nat) (address : NetworkAddress)
  | connectResult (ec : Nat) (node : Nat) (address : NetworkAddress)
  | acceptResult (ec : Nat) (node : Nat)
  | channelStop (node : Nat)
deriving DecidableEq

/-- Dispatch one event.  The guards (`pendingFetch > 0`, membership in
`pendingConnect`, a posted closure being available) make an event whose
asynchronous operation was never issued a no-op, so `step` is total
while every trace we reason about only uses enabled events. -/
def step (s : ProtocolState) : PEvent → ProtocolState
  | .tryConnect => try_connect s
  | .runPosted =>
      if s.postedTryConnect > 0 then
        try_connect { s with postedTryConnect := s.postedTryConnect - 1 }
      else s
  | .fetchResult ec address =>
      if s.pendingFetch > 0 then
        attempt_connect { s with pendingFetch := s.pendingFetch - 1 } ec address
      else s
  | .connectResult ec node address =>
      if address ∈ s.pendingConnect then
        handle_connect
          { s with pendingConnect :=
              eraseFirst (fun a => a = address) s.pendingConnect }
          ec node address
      else s
  | .acceptResult ec node => handle_accept s ec node
  | .channelStop node => channel_stopped s node

/-- Run a sequence of handler dispatches from a state. -/
def runTrace (s : ProtocolState) (events : List PEvent) : ProtocolState :=
  events.foldl step s

/-!
## Startup (`protocol::start` and its two completion paths)

`start` creates a fresh `atomic_counter` at 0 and launches the bootstrap
path and the handshake-service path, each ending in its own strand-wrapped
handler.  Both handlers receive the shared counter and the original
completion handler.  We record the state they share and every invocation
of the completion handler (with its error code), plus whether `run()` was
called.
-/

/-- Shared state of one `protocol::start` execution: the
`atomic_counter` `count_paths`, the list of invocations of
`handle_complete` (each with its error code), and whether `run()` has
been called. -/
structure StartState where
  count_paths : Nat
  completions : List Nat
  runCalled : Bool
deriving DecidableEq

/-- State right after `protocol::start` posts the two paths:
`count_paths` freshly 0, no completion yet. -/
def startInit : StartState :=
  { count_paths := 0, completions := [], runCalled := false }

/-- `protocol::handle_bootstrap`: on error, log and
`handle_complete(ec)`; on success, `++(*count_paths)` and, if the
counter reached 2, `handle_complete(std::error_code())` then `run()`. -/
def handle_bootstrap (ec : Nat) (s : StartState) : StartState :=
  if ec ≠ 0 then { s with completions := s.completions ++ [ec] }
  else
    let c := s.count_paths + 1
    if c = 2 then
      { count_paths := c, completions := s.completions ++ [0], runCalled := true }
    else { s with count_paths := c }

/-- `protocol::handle_start_handshake_service`: textually the same logic
as `handle_bootstrap` (only the log message differs). -/
def handle_start_handshake_service (ec : Nat) (s : StartState) : StartState :=
  if ec ≠ 0 then { s with completions := s.completions ++ [ec] }
  else
    let c := s.count_paths + 1
    if c = 2 then
      { count_paths := c, completions := s.completions ++ [0], runCalled := true }
    else { s with count_paths := c }

/-- The two path completions of one `start` call, in the order the
strand dispatches them. -/
inductive StartEvent where
  | bootstrapDone (ec : Nat)
  | handshakeDone (ec : Nat)
deriving DecidableEq

/-- Dispatch one startup-path completion. -/
def startStep (s : StartState) : StartEvent → StartState
  | .bootstrapDone ec => handle_bootstrap ec s
  | .handshakeDone ec => handle_start_handshake_service ec s

/-- Run a `start` execution: fold the path completions over the fresh
state. -/
def runStart (events : List StartEvent) : StartState :=
  events.foldl startStep startInit

/-!
## Stop (`protocol::stop` / `protocol::handle_save`)
-/

/-- `protocol::handle_save`: on save error, log and
`handle_complete(ec)`; otherwise `handle_complete(std::error_code())`.
Returns the list of completion-handler invocations. -/
def handle_save (ec : Nat) : List Nat :=
  if ec ≠ 0 then [ec] else [0]

/-- `protocol::stop`: issues `hosts_->save(hosts_filename_, ...)` with
`handle_save` as (strand-wrapped) callback.  The result records the path
the save was issued against and the completion invocations once the save
returns `saveResult`. -/
def stopRun (saveResult : Nat) : String × List Nat :=
  (hosts_filename, handle_save saveResult)

/-!
## Seeder (`protocol::seeds`)

One seeding run: `start` resets `ended_paths_ = 0`, `finished_ = false`
and fires one `connect_dns_seed` per entry of `dns_seeds`.  Each seed
then produces asynchronous callbacks: the connect result
(`request_addresses`), the get_address send result
(`handle_send_get_address`) and the address-subscription result
(`save_addresses`).  We tag each event with the seed's index so that a
trace can say which seed produced it, but — exactly like the C++
handlers, which never inspect which seed a callback came from — the
step functions ignore the tag.
-/

/-- The fixed DNS seed list. -/
def dns_seeds : List String :=
  ["bitseed.xf2.org",
   "dnsseed.bluematt.me",
   "seed.bitcoin.sipa.be",
   "dnsseed.bitcoin.dashjr.org"]

/-- State of one `protocol::seeds` run: the `ended_paths_` counter, the
`finished_` flag, every invocation of `handle_complete_` (with its
error code), and the addresses handed to `hosts_->store`. -/
structure SeedsState where
  ended_paths : Nat
  finished : Bool
  completions : List Nat
  stored : List NetworkAddress
deriving DecidableEq

/-- State set up by `protocol::seeds::start`. -/
def seedsInit : SeedsState :=
  { ended_paths := 0, finished := false, completions := [], stored := [] }

/-- `protocol::seeds::error_case`: if `finished_` return; else increment
`ended_paths_` and, if it reached `dns_seeds.size()`, set `finished_`
and invoke the completion with this error. -/
def error_case (s : SeedsState) (ec : Nat) : SeedsState :=
  if s.finished then s
  else
    let ended := s.ended_paths + 1
    if ended = dns_seeds.length then
      { s with ended_paths := ended, finished := true,
               completions := s.completions ++ [ec] }
    else { s with ended_paths := ended }

/-- `protocol::seeds::request_addresses` (the connect callback): on
error, log and `error_case(ec)`; on success the node is sent
`get_address` and subscribed for addresses (both asynchronous — their
results arrive as later events). -/
def request_addresses (s : SeedsState) (ec : Nat) : SeedsState :=
  if ec ≠ 0 then error_case s ec else s

/-- `protocol::seeds::handle_send_get_address`: on send error, log and
`error_case(ec)`. -/
def handle_send_get_address (s : SeedsState) (ec : Nat) : SeedsState :=
  if ec ≠ 0 then error_case s ec else s

/-- `protocol::seeds::save_addresses` (the address-subscription
callback): on error, `error_case(ec)`; on success, store every address
of the packet, then — if not `finished_` — increment `ended_paths_`,
set `finished_` and invoke the completion with success. -/
def save_addresses (s : SeedsState) (ec : Nat)
    (packet : List NetworkAddress) : SeedsState :=
  if ec ≠ 0 then error_case s ec
  else
    let s1 := { s with stored := s.stored ++ packet }
    if ¬ s1.finished then
      { s1 with ended_paths := s1.ended_paths + 1, finished := true,
                completions := s1.completions ++ [0] }
    else s1

/-- One asynchronous callback of a seeding run, tagged with the index of
the seed it belongs to. -/
inductive SEvent where
  | connectResult (seed : Fin 4) (ec : Nat)
  | sendResult (seed : Fin 4) (ec : Nat)
  | addressResult (seed : Fin 4) (ec : Nat) (packet : List NetworkAddress)
deriving DecidableEq

/-- The seed a callback belongs to. -/
def seedOf : SEvent → Fin 4
  | .connectResult seed _ => seed
  | .sendResult seed _ => seed
  | .addressResult seed _ _ => seed

/-- Dispatch one seeding callback to the handler the C++ code binds. -/
def seedsStep (s : SeedsState) : SEvent → SeedsState
  | .connectResult _ ec => request_addresses s ec
  | .sendResult _ ec => handle_send_get_address s ec
  | .addressResult _ ec packet => save_addresses s ec packet

/-- Run one seeding run over a callback sequence. -/
def runSeeds (events : List SEvent) : SeedsState :=
  events.foldl seedsStep seedsInit

/-- The kinds of failure event a seed can produce: a connect error
(`request_addresses` with an error), a send error
(`handle_send_get_address` with an error) or a receive error
(`save_addresses` with an error).  All three are routed to
`error_case`. -/
inductive FailKind where
  | connectFail
  | sendFail
  | receiveFail
deriving DecidableEq

/-- Build the callback event of one failure of the given kind. -/
def mkFail (k : FailKind) (seed : Fin 4) (ec : Nat) : SEvent :=
  match k with
  | .connectFail => .connectResult seed ec
  | .sendFail => .sendResult seed ec
  | .receiveFail => .addressResult seed ec []

/-- Invariant of a seeding run: before the run is finished no
completion has been delivered and at most 3 paths have ended; once
finished, exactly one completion has been delivered. -/
def SeedsInv (s : SeedsState) : Prop :=
  (s.finished = false → s.completions = [] ∧ s.ended_paths ≤ 3)
  ∧ (s.finished = true → s.completions.length = 1)

/-- Does dispatching this event execute the body of `try_connect`?
(`run()`'s direct dispatch, a posted repost, or the direct call inside
`channel_stopped` when the stopped channel is found outbound.) -/
def triggersTryConnect (s : ProtocolState) : PEvent → Bool
  | .tryConnect => true
  | .runPosted => true
  | .channelStop n => s.connections.any (fun c => c.node = n)
  | _ => false

/-- No fetch_address callback and no connect attempt is in flight. -/
def idleNet (s : ProtocolState) : Bool :=
  s.pendingFetch == 0 && s.pendingConnect.isEmpty

/-- A trace is quiet when every execution of the `try_connect` body
happens while no fetch or connect is in flight (so reposts never
overlap earlier attempts). -/
def quietTrace : ProtocolState → List PEvent → Bool
  | _, [] => true
  | s, e :: es =>
      (!(triggersTryConnect s e) || idleNet s) && quietTrace (step s e) es

/-- The sum of established outbound connections and in-flight work is
bounded by `max_outbound`; this is the inductive invariant behind the
`|outbound| ≤ max_outbound` bound. -/
def boundInv (s : ProtocolState) : Prop :=
  s.connections.length + s.pendingFetch + s.pendingConnect.length ≤ max_outbound

/-- The (ip, port) keys of the outbound list. -/
def outboundKeys (s : ProtocolState) : List (Nat × Nat) :=
  s.connections.map (fun c => addrKey c.address)

/-- Established outbound keys and in-flight connect-attempt keys are
jointly duplicate-free; this is the inductive invariant behind the
no-duplicate property. -/
def dedupInv (s : ProtocolState) : Prop :=
  List.Nodup (outboundKeys s ++ s.pendingConnect.map addrKey)

/-- One event is fresh in a state when, if it is a successful
fetch_address callback, the delivered address's (ip, port) is not that
of a connect attempt still in flight. -/
def freshOk (s : ProtocolState) : PEvent → Bool
  | .fetchResult ec address =>
      (ec != 0) || decide (addrKey address ∉ s.pendingConnect.map addrKey)
  | _ => true

/-- A trace is fresh when no successful fetch_address callback delivers
an address whose (ip, port) equals that of a connect attempt still in
flight. -/
def freshTrace : ProtocolState → List PEvent → Bool
  | _, [] => true
  | s, e :: es => freshOk s e && freshTrace (step s e) es

/-- A concrete interleaving in which a connect failure reposts
`try_connect` while the first batch of fetches is still outstanding:
the repost issues 8 further fetches, and 9 successful connects later
the outbound list holds 9 entries. -/
def overfillTrace : List PEvent :=
  [.tryConnect,
   .fetchResult 0 ⟨1, 8333⟩,
   .connectResult 1 99 ⟨1, 8333⟩,
   .runPosted,
   .fetchResult 0 ⟨1, 8333⟩, .fetchResult 0 ⟨2, 8333⟩,
   .fetchResult 0 ⟨3, 8333⟩, .fetchResult 0 ⟨4, 8333⟩,
   .fetchResult 0 ⟨5, 8333⟩, .fetchResult 0 ⟨6, 8333⟩,
   .fetchResult 0 ⟨7, 8333⟩, .fetchResult 0 ⟨8, 8333⟩,
   .fetchResult 0 ⟨9, 8333⟩,
   .connectResult 0 1 ⟨1, 8333⟩, .connectResult 0 2 ⟨2, 8333⟩,
   .connectResult 0 3 ⟨3, 8333⟩, .connectResult 0 4 ⟨4, 8333⟩,
   .connectResult 0 5 ⟨5, 8333⟩, .connectResult 0 6 ⟨6, 8333⟩,
   .connectResult 0 7 ⟨7, 8333⟩, .connectResult 0 8 ⟨8, 8333⟩,
   .connectResult 0 9 ⟨9, 8333⟩]

/-- A concrete interleaving in which two fetch_address callbacks return
the same address before either connect completes: both pass the
pre-connect dedup scan and both connects succeed. -/
def duplicateTrace : List PEvent :=
  [.tryConnect,
   .fetchResult 0 ⟨1, 8333⟩,
   .fetchResult 0 ⟨1, 8333⟩,
   .connectResult 0 1 ⟨1, 8333⟩,
   .connectResult 0 2 ⟨1, 8333⟩]

/-- A seeding run in which seeds 0 and 1 each fail twice (send error
then receive error) while seeds 2 and 3 produce no outcome at all. -/
def doubleFailTrace : List SEvent :=
  [.connectResult 0 0, .sendResult 0 11, .addressResult 0 12 [],
   .connectResult 1 0, .sendResult 1 13, .addressResult 1 14 []]

/-- The same shape of run with different codes, seeds 2 and 3 failing
twice each while seeds 0 and 1 are still pending. -/
def pendingSeedTrace : List SEvent :=
  [.connectResult 2 0, .sendResult 2 21, .addressResult 2 22 [],
   .connectResult 3 0, .sendResult 3 23, .addressResult 3 24 []]

/-- A concrete sample state used to instantiate theorems with
hypotheses: one outbound connection (channel 7) and one accepted
channel (9). -/
def sampleOutbound : ProtocolState :=
  { connections := [⟨⟨1, 8333⟩, 7⟩], accepted_channels := [9],
    pendingFetch := 0, pendingConnect := [], postedTryConnect := 0 }

/-!
## Helper lemmas
-/

lemma eraseFirst_sublist (p : α → Bool) :
    ∀ l : List α, List.Sublist (eraseFirst p l) l
  | [] => List.Sublist.refl []
  | x :: xs => by
      unfold eraseFirst
      split
      · exact List.sublist_cons_self x xs
      · exact List.Sublist.cons₂ x (eraseFirst_sublist p xs)

lemma eraseFirst_of_forall_not (p : α → Bool) :
    ∀ l : List α, (∀ x ∈ l, ¬ p x) → eraseFirst p l = l
  | [], _ => rfl
  | x :: xs, h => by
      unfold eraseFirst
      rw [if_neg (by simpa using h x (by simp))]
      rw [eraseFirst_of_forall_not p xs (fun y hy => h y (by simp [hy]))]

lemma eraseFirst_length (p : α → Bool) :
    ∀ l : List α, (∃ x ∈ l, p x) → (eraseFirst p l).length + 1 = l.length
  | x :: xs, h => by
      unfold eraseFirst
      split
      · simp
      · next hx =>
          have : ∃ y ∈ xs, p y := by
            rcases h with ⟨y, hy, hpy⟩
            rcases List.mem_cons.mp hy with rfl | hmem
            · exact absurd hpy hx
            · exact ⟨y, hmem, hpy⟩
          simpa using eraseFirst_length p xs this

lemma map_perm_eraseFirst_eq {α β : Type} [DecidableEq α] (f : α → β) (a : α) :
    ∀ l : List α, a ∈ l →
      List.Perm (l.map f) (f a :: (eraseFirst (fun x => x = a) l).map f)
  | x :: xs, h => by
      unfold eraseFirst
      by_cases hx : x = a
      · subst hx
        simp
      · rw [if_neg (by simp [hx])]
        have hmem : a ∈ xs := by
          rcases List.mem_cons.mp h with rfl | hmem
          · exact absurd rfl hx
          · exact hmem
        have h1 := List.Perm.cons (f x) (map_perm_eraseFirst_eq f a xs hmem)
        have h2 := List.Perm.swap (f a) (f x)
          ((eraseFirst (fun y => y = a) xs).map f)
        simpa using h1.trans h2

/-- `try_connect` in one equation: the fetch count rises by the number
of vacant slots (`max_outbound - |connections|` in truncated
subtraction, which is 0 when the list is full or over-full) and nothing
else changes. -/
lemma try_connect_eq (s : ProtocolState) :
    try_connect s =
      { s with pendingFetch :=
          s.pendingFetch + (max_outbound - s.connections.length) } := by
  unfold try_connect
  split
  · next h => cases s; simp [Nat.sub_eq_zero_of_le h]
  · rfl

/-!
## Claims
-/

/-- Claim C5: for every state of the outbound list, a call to
`try_connect` issues exactly `max(0, max_outbound − |outbound|)`
fetch_address calls on the host store — zero calls (a no-op) when
`|outbound| ≥ max_outbound` — and touches nothing else.  Truncated
`Nat` subtraction renders `max(0, ·)`. -/
theorem c5_try_connect_fetch_calls (s : ProtocolState) :
    (try_connect s).pendingFetch
      = s.pendingFetch + (max_outbound - s.connections.length)
    ∧ (try_connect s).connections = s.connections
    ∧ (try_connect s).accepted_channels = s.accepted_channels
    ∧ (try_connect s).pendingConnect = s.pendingConnect
    ∧ (try_connect s).postedTryConnect = s.postedTryConnect := by
  rw [try_connect_eq]
  exact ⟨rfl, rfl, rfl, rfl, rfl⟩

/-- Claim C7: every call to `stop` issues a save of the host store to
`hosts_filename` ("hosts"), and the completion handler is invoked
exactly once with the error code produced by that save (the save error
on failure, success otherwise — in both cases the list of invocations
is exactly `[saveResult]`). -/
theorem c7_stop_saves_then_completes (ec : Nat) :
    (stopRun ec).1 = "hosts" ∧ (stopRun ec).2 = [ec] := by
  constructor
  · rfl
  · show handle_save ec = [ec]
    unfold handle_save
    by_cases h : ec = 0
    · subst h; simp
    · simp [h]

/-- Claim C8: `fetch_connection_count` hands its handler the current
length of the outbound connection list together with a success (0)
error code, and the result never depends on the inbound (accepted)
list. -/
theorem c8_fetch_connection_count (s : ProtocolState) (inbound : List Nat) :
    do_fetch_connection_count s = (0, s.connections.length)
    ∧ do_fetch_connection_count { s with accepted_channels := inbound }
      = do_fetch_connection_count s :=
  ⟨rfl, rfl⟩

/-- Claim C6: when a channel's stop notification fires, the matching
entry (scan by channel identity) is removed from the outbound list and
`try_connect` runs to refill (its fetch issue observable as the
`pendingFetch` increase for the new vacancy count); the same handler
also removes the channel from the inbound list if present; and a stop
notification for a channel in neither list leaves the whole state
unchanged. -/
theorem c6_channel_stopped (s : ProtocolState) (n : Nat) :
    ((∃ c ∈ s.connections, c.node = n) →
        (channel_stopped s n).connections
          = eraseFirst (fun c => c.node = n) s.connections
        ∧ (channel_stopped s n).connections.length + 1 = s.connections.length
        ∧ (channel_stopped s n).pendingFetch
          = s.pendingFetch + (max_outbound -
              (eraseFirst (fun c => c.node = n) s.connections).length))
    ∧ (channel_stopped s n).accepted_channels
        = eraseFirst (fun m => m = n) s.accepted_channels
    ∧ ((∀ c ∈ s.connections, c.node ≠ n) → n ∉ s.accepted_channels →
        channel_stopped s n = s) := by
  by_cases hc : s.connections.any (fun c => c.node = n)
  · have hex : ∃ c ∈ s.connections, c.node = n := by simpa using hc
    refine ⟨fun _ => ?_, ?_, fun hall _ => ?_⟩
    · refine ⟨?_, ?_, ?_⟩
      · simp [channel_stopped, hc, try_connect_eq]
      · have := eraseFirst_length (fun c => c.node = n) s.connections
          (by simpa using hex)
        simpa [channel_stopped, hc, try_connect_eq] using this
      · simp [channel_stopped, hc, try_connect_eq]
    · simp [channel_stopped, hc, try_connect_eq]
    · rcases hex with ⟨c, hmem, hnode⟩
      exact absurd hnode (hall c hmem)
  · refine ⟨fun hex => ?_, ?_, fun _ hnin => ?_⟩
    · exact absurd (by simpa using hex) hc
    · simp [channel_stopped, hc]
    · have hacc : eraseFirst (fun m => m = n) s.accepted_channels
          = s.accepted_channels :=
        eraseFirst_of_forall_not _ _ (fun x hx => by
          simp only [decide_eq_true_eq]
          exact fun h => hnin (h ▸ hx))
      simp only [channel_stopped, hc, if_false, Bool.false_eq_true]
      rw [hacc]

/-- Witness for C6: in `sampleOutbound` channel 7 is the only outbound
connection; its stop removes it and refills all 8 slots. -/
theorem c6_channel_stopped_witness :
    (∃ c ∈ sampleOutbound.connections, c.node = 7)
    ∧ (channel_stopped sampleOutbound 7).connections
        = eraseFirst (fun c => c.node = 7) sampleOutbound.connections
    ∧ (channel_stopped sampleOutbound 7).pendingFetch
        = sampleOutbound.pendingFetch + (max_outbound -
            (eraseFirst (fun c => c.node = 7) sampleOutbound.connections).length) :=
  ⟨by decide,
   ((c6_channel_stopped sampleOutbound 7).1 (by decide)).1,
   ((c6_channel_stopped sampleOutbound 7).1 (by decide)).2.2⟩

/-- Claim C10: a stop notification for a channel present only in the
inbound (accepted) list removes it from that list but does not invoke
`try_connect` (no fetch issued, nothing posted) and leaves the outbound
list — and everything else — unchanged. -/
theorem c10_stop_of_inbound_only (s : ProtocolState) (n : Nat)
    (hout : ∀ c ∈ s.connections, c.node ≠ n)
    (hin : n ∈ s.accepted_channels) :
    (channel_stopped s n).connections = s.connections
    ∧ (channel_stopped s n).pendingFetch = s.pendingFetch
    ∧ (channel_stopped s n).pendingConnect = s.pendingConnect
    ∧ (channel_stopped s n).postedTryConnect = s.postedTryConnect
    ∧ (channel_stopped s n).accepted_channels
        = eraseFirst (fun m => m = n) s.accepted_channels
    ∧ (channel_stopped s n).accepted_channels.length + 1
        = s.accepted_channels.length := by
  have hc : s.connections.any (fun c => c.node = n) = false := by
    simp only [List.any_eq_false, decide_eq_true_eq]
    exact hout
  have hlen := eraseFirst_length (fun m => m = n) s.accepted_channels
    ⟨n, hin, by simp⟩
  refine ⟨?_, ?_, ?_, ?_, ?_, ?_⟩ <;>
    simp [channel_stopped, hc, hlen]

/-- Witness for C10: channel 9 of `sampleOutbound` is only in the
accepted list; its stop erases it there and leaves the outbound list
alone. -/
theorem c10_stop_of_inbound_only_witness :
    (∀ c ∈ sampleOutbound.connections, c.node ≠ 9)
    ∧ 9 ∈ sampleOutbound.accepted_channels
    ∧ (channel_stopped sampleOutbound 9).connections
        = sampleOutbound.connections
    ∧ (channel_stopped sampleOutbound 9).pendingFetch
        = sampleOutbound.pendingFetch :=
  ⟨by decide, by decide,
   (c10_stop_of_inbound_only sampleOutbound 9 (by decide) (by decide)).1,
   (c10_stop_of_inbound_only sampleOutbound 9 (by decide) (by decide)).2.1⟩

/-- Claim C1 counterexample: when both initialization paths fail
(bootstrap with error 5, handshake with error 7) the completion handler
is invoked twice — both error branches call `handle_complete`
unconditionally, there is no guard — refuting at-most-once
completion. -/
theorem c1_counterexample :
    (runStart [.bootstrapDone 5, .handshakeDone 7]).completions = [5, 7]
    ∧ ¬ (runStart [.bootstrapDone 5, .handshakeDone 7]).completions.length ≤ 1 := by
  decide

/-- Claim C1 as amended: with at most one failing path, `start`'s
completion handler fires exactly once — with success when both paths
succeed (and only then is `run()` called), with the error when exactly
one path fails (the other path's success is ignored) — but when both
paths fail it fires twice, once per error, in arrival order.  Both
dispatch orders of the two paths are covered. -/
theorem c1_start_completion_amended (b h : Nat) :
    (b = 0 → h = 0 →
        (runStart [.bootstrapDone b, .handshakeDone h]).completions = [0]
        ∧ (runStart [.bootstrapDone b, .handshakeDone h]).runCalled = true
        ∧ (runStart [.handshakeDone h, .bootstrapDone b]).completions = [0]
        ∧ (runStart [.handshakeDone h, .bootstrapDone b]).runCalled = true)
    ∧ (b = 0 → h ≠ 0 →
        (runStart [.bootstrapDone b, .handshakeDone h]).completions = [h]
        ∧ (runStart [.bootstrapDone b, .handshakeDone h]).runCalled = false
        ∧ (runStart [.handshakeDone h, .bootstrapDone b]).completions = [h]
        ∧ (runStart [.handshakeDone h, .bootstrapDone b]).runCalled = false)
    ∧ (b ≠ 0 → h = 0 →
        (runStart [.bootstrapDone b, .handshakeDone h]).completions = [b]
        ∧ (runStart [.bootstrapDone b, .handshakeDone h]).runCalled = false
        ∧ (runStart [.handshakeDone h, .bootstrapDone b]).completions = [b]
        ∧ (runStart [.handshakeDone h, .bootstrapDone b]).runCalled = false)
    ∧ (b ≠ 0 → h ≠ 0 →
        (runStart [.bootstrapDone b, .handshakeDone h]).completions = [b, h]
        ∧ (runStart [.bootstrapDone b, .handshakeDone h]).runCalled = false
        ∧ (runStart [.handshakeDone h, .bootstrapDone b]).completions = [h, b]
        ∧ (runStart [.handshakeDone h, .bootstrapDone b]).runCalled = false) := by
  refine ⟨fun hb hh => ?_, fun hb hh => ?_, fun hb hh => ?_, fun hb hh => ?_⟩
  · subst hb; subst hh; decide
  · subst hb
    simp [runStart, startStep, startInit, handle_bootstrap,
      handle_start_handshake_service, hh]
  · subst hh
    simp [runStart, startStep, startInit, handle_bootstrap,
      handle_start_handshake_service, hb]
  · simp [runStart, startStep, startInit, handle_bootstrap,
      handle_start_handshake_service, hb, hh]

/-- Witness for the amended C1: both-success completes once with
success and calls `run()`; a single handshake failure (code 3)
completes once with 3. -/
theorem c1_start_completion_amended_witness :
    (runStart [.bootstrapDone 0, .handshakeDone 0]).completions = [0]
    ∧ (runStart [.bootstrapDone 0, .handshakeDone 0]).runCalled = true
    ∧ (runStart [.bootstrapDone 0, .handshakeDone 3]).completions = [3]
    ∧ (runStart [.bootstrapDone 0, .handshakeDone 3]).runCalled = false :=
  ⟨((c1_start_completion_amended 0 0).1 rfl rfl).1,
   ((c1_start_completion_amended 0 0).1 rfl rfl).2.1,
   ((c1_start_completion_amended 0 3).2.1 rfl (by decide)).1,
   ((c1_start_completion_amended 0 3).2.1 rfl (by decide)).2.1⟩

lemma dns_seeds_length : dns_seeds.length = 4 := rfl

lemma seedsInv_error_case (s : SeedsState) (ec : Nat) (h : SeedsInv s) :
    SeedsInv (error_case s ec) := by
  unfold error_case
  by_cases hf : s.finished = true
  · simpa [hf] using h
  · have hb : s.finished = false := by simpa using hf
    have hc := h.1 hb
    by_cases he : s.ended_paths + 1 = dns_seeds.length
    · simp only [hb, Bool.false_eq_true, if_false, he, if_true]
      exact ⟨fun hx => by simp at hx, fun _ => by simp [hc.1]⟩
    · simp only [hb, Bool.false_eq_true, if_false, he, if_true]
      refine ⟨fun _ => ⟨hc.1, ?_⟩, fun hx => by simp [hb] at hx⟩
      have h4 : dns_seeds.length = 4 := dns_seeds_length
      show s.ended_paths + 1 ≤ 3
      omega

lemma seedsInv_step (s : SeedsState) (e : SEvent) (h : SeedsInv s) :
    SeedsInv (seedsStep s e) := by
  cases e with
  | connectResult seed ec =>
      show SeedsInv (request_addresses s ec)
      unfold request_addresses
      by_cases hec : ec ≠ 0
      · simpa [hec] using seedsInv_error_case s ec h
      · simpa [hec] using h
  | sendResult seed ec =>
      show SeedsInv (handle_send_get_address s ec)
      unfold handle_send_get_address
      by_cases hec : ec ≠ 0
      · simpa [hec] using seedsInv_error_case s ec h
      · simpa [hec] using h
  | addressResult seed ec packet =>
      show SeedsInv (save_addresses s ec packet)
      unfold save_addresses
      by_cases hec : ec ≠ 0
      · simpa [hec] using seedsInv_error_case s ec h
      · by_cases hf : s.finished = true
        · simp only [hec, if_false, hf]
          refine ⟨fun hx => ?_, fun _ => ?_⟩
          · simp [hf] at hx
          · simpa [hf] using h.2 hf
        · have hb : s.finished = false := by simpa using hf
          have hc := h.1 hb
          simp only [hec, if_false, hb]
          refine ⟨fun hx => ?_, fun _ => by simp [hc.1]⟩
          · simp at hx

lemma seedsInv_run : ∀ (events : List SEvent) (s : SeedsState),
    SeedsInv s → SeedsInv (events.foldl seedsStep s)
  | [], _, h => h
  | e :: es, s, h => seedsInv_run es (seedsStep s e) (seedsInv_step s e h)

lemma seedsInv_init : SeedsInv seedsInit :=
  ⟨fun _ => ⟨rfl, by decide⟩, fun hx => by simp [seedsInit] at hx⟩

lemma seedsStep_mkFail (s : SeedsState) (k : FailKind) (seed : Fin 4)
    (ec : Nat) (hec : ec ≠ 0) :
    seedsStep s (mkFail k seed ec) = error_case s ec := by
  cases k <;> simp [mkFail, seedsStep, request_addresses,
    handle_send_get_address, save_addresses, hec]

lemma runSeeds_append (pre : List SEvent) (e : SEvent) :
    runSeeds (pre ++ [e]) = seedsStep (runSeeds pre) e := by
  simp [runSeeds]

/-- Claim C9: a single seed whose get_address send fails and whose
address subscription also errors contributes two increments to
`ended_paths_` (after seed 0's two failures the counter is already 2),
so two seeds failing twice each drive the counter to the seed-list
size and fire the completion with an error while seeds 2 and 3 — which
produce no event in this trace — are still pending. -/
theorem c9_error_case_counts_events :
    (runSeeds (doubleFailTrace.take 3)).ended_paths = 2
    ∧ (runSeeds doubleFailTrace).completions = [14]
    ∧ (runSeeds doubleFailTrace).ended_paths = dns_seeds.length
    ∧ (runSeeds doubleFailTrace).finished = true
    ∧ doubleFailTrace.all (fun e => (seedOf e).val < 2) = true := by
  decide

/-- Claim C4 counterexample: in `pendingSeedTrace` only seeds 2 and 3
produce outcomes (each failing twice: send error then receive error),
yet the completion handler fires with error 24 — refuting "completion
with an error fires only after all seeds have failed", since seeds 0
and 1 have neither failed nor succeeded. -/
theorem c4_counterexample :
    (runSeeds pendingSeedTrace).completions = [24]
    ∧ pendingSeedTrace.all (fun e => 2 ≤ (seedOf e).val) = true := by
  decide

/-- Claim C4 as amended: the Seeder's completion handler fires at most
once per run; with success (and the packet stored) on the first seed
delivery that arrives before the run is finished; with the fourth
failure event's error when four failure events (connect, send or
receive errors — a single seed can contribute more than one) occur
first; and deliveries after completion still store their addresses
without re-firing the handler.  When each of the four seeds fails
exactly once, the four failure events coincide with all seeds having
failed and the completion carries the last error. -/
theorem c4_seeder_completion_amended :
    (∀ events : List SEvent, (runSeeds events).completions.length ≤ 1)
    ∧ (∀ (k1 k2 k3 k4 : FailKind) (s1 s2 s3 s4 : Fin 4) (c1 c2 c3 c4 : Nat),
        c1 ≠ 0 → c2 ≠ 0 → c3 ≠ 0 → c4 ≠ 0 →
        (runSeeds [mkFail k1 s1 c1, mkFail k2 s2 c2, mkFail k3 s3 c3,
          mkFail k4 s4 c4]).completions = [c4])
    ∧ (∀ (pre : List SEvent) (seed : Fin 4) (packet : List NetworkAddress),
        (runSeeds pre).finished = false →
        (runSeeds (pre ++ [SEvent.addressResult seed 0 packet])).completions = [0]
        ∧ (runSeeds (pre ++ [SEvent.addressResult seed 0 packet])).stored
            = (runSeeds pre).stored ++ packet)
    ∧ (∀ (pre : List SEvent) (seed : Fin 4) (packet : List NetworkAddress),
        (runSeeds pre).finished = true →
        (runSeeds (pre ++ [SEvent.addressResult seed 0 packet])).completions
            = (runSeeds pre).completions
        ∧ (runSeeds (pre ++ [SEvent.addressResult seed 0 packet])).stored
            = (runSeeds pre).stored ++ packet) := by
  refine ⟨?_, ?_, ?_, ?_⟩
  · intro events
    have h : SeedsInv (runSeeds events) :=
      seedsInv_run events seedsInit seedsInv_init
    by_cases hf : (runSeeds events).finished = true
    · simp [h.2 hf]
    · simp [(h.1 (by simpa using hf)).1]
  · intro k1 k2 k3 k4 s1 s2 s3 s4 c1 c2 c3 c4 h1 h2 h3 h4
    show (([mkFail k1 s1 c1, mkFail k2 s2 c2, mkFail k3 s3 c3,
      mkFail k4 s4 c4]).foldl seedsStep seedsInit).completions = [c4]
    simp only [List.foldl_cons, List.foldl_nil,
      seedsStep_mkFail _ _ _ _ h1, seedsStep_mkFail _ _ _ _ h2,
      seedsStep_mkFail _ _ _ _ h3, seedsStep_mkFail _ _ _ _ h4]
    simp [error_case, seedsInit, dns_seeds_length]
  · intro pre seed packet hfin
    have hpre : (runSeeds pre).completions = [] :=
      ((seedsInv_run pre seedsInit seedsInv_init).1 hfin).1
    rw [runSeeds_append]
    constructor
    · show (save_addresses (runSeeds pre) 0 packet).completions = [0]
      simp [save_addresses, hfin, hpre]
    · show (save_addresses (runSeeds pre) 0 packet).stored = _
      simp [save_addresses, hfin]
  · intro pre seed packet hfin
    constructor
    · rw [runSeeds_append]
      show (save_addresses (runSeeds pre) 0 packet).completions = _
      simp [save_addresses, hfin]
    · rw [runSeeds_append]
      show (save_addresses (runSeeds pre) 0 packet).stored = _
      simp [save_addresses, hfin]

/-- Witness for the amended C4: four connect failures (one per seed)
complete once with the last error 7; a first delivery on a fresh run
completes once with success. -/
theorem c4_seeder_completion_amended_witness :
    (runSeeds [mkFail .connectFail 0 9, mkFail .connectFail 1 9,
      mkFail .connectFail 2 9, mkFail .connectFail 3 7]).completions = [7]
    ∧ (runSeeds ([] ++ [SEvent.addressResult 0 0 [⟨5, 8333⟩]])).completions
        = [0] :=
  ⟨c4_seeder_completion_amended.2.1 .connectFail .connectFail .connectFail
      .connectFail 0 1 2 3 9 9 9 7 (by decide) (by decide) (by decide)
      (by decide),
   (c4_seeder_completion_amended.2.2.1 [] 0 [⟨5, 8333⟩] (by decide)).1⟩

lemma boundInv_try_connect (s : ProtocolState) (hpf : s.pendingFetch = 0)
    (hpc : s.pendingConnect = []) (h : boundInv s) :
    boundInv (try_connect s) := by
  rw [try_connect_eq]
  unfold boundInv at h ⊢
  simp only [hpf, hpc, List.length_nil] at h ⊢
  omega

lemma boundInv_step (s : ProtocolState) (e : PEvent) (h : boundInv s)
    (hq : (!(triggersTryConnect s e) || idleNet s) = true) :
    boundInv (step s e) := by
  obtain ⟨conns, acc, pf, pc, post⟩ := s
  cases e with
  | tryConnect =>
      obtain ⟨hpf, hpc⟩ : pf = 0 ∧ pc = [] := by
        simpa [triggersTryConnect, idleNet, List.isEmpty_iff] using hq
      exact boundInv_try_connect _ hpf hpc h
  | runPosted =>
      obtain ⟨hpf, hpc⟩ : pf = 0 ∧ pc = [] := by
        simpa [triggersTryConnect, idleNet, List.isEmpty_iff] using hq
      show boundInv (if post > 0 then
        try_connect ⟨conns, acc, pf, pc, post - 1⟩ else ⟨conns, acc, pf, pc, post⟩)
      split
      · exact boundInv_try_connect _ hpf hpc h
      · exact h
  | fetchResult ec address =>
      show boundInv (if pf > 0 then
        attempt_connect ⟨conns, acc, pf - 1, pc, post⟩ ec address
        else ⟨conns, acc, pf, pc, post⟩)
      by_cases hpf : pf > 0
      · rw [if_pos hpf]
        unfold attempt_connect
        unfold boundInv at h ⊢
        split
        · simp only [] at h ⊢
          omega
        · split <;> simp only [List.length_append, List.length_cons,
            List.length_nil] at h ⊢ <;> omega
      · rw [if_neg hpf]
        exact h
  | connectResult ec node address =>
      show boundInv (if address ∈ pc then
        handle_connect ⟨conns, acc, pf,
          eraseFirst (fun a => a = address) pc, post⟩ ec node address
        else ⟨conns, acc, pf, pc, post⟩)
      by_cases hmem : address ∈ pc
      · have hlen : (eraseFirst (fun a => a = address) pc).length + 1
            = pc.length :=
          eraseFirst_length _ _ ⟨address, hmem, by simp⟩
        rw [if_pos hmem]
        unfold handle_connect
        unfold boundInv at h ⊢
        split <;> simp only [List.length_append, List.length_cons,
          List.length_nil] at h ⊢ <;> omega
      · rw [if_neg hmem]
        exact h
  | acceptResult ec node =>
      show boundInv (handle_accept ⟨conns, acc, pf, pc, post⟩ ec node)
      unfold handle_accept
      split
      · exact h
      · exact h
  | channelStop n =>
      show boundInv (channel_stopped ⟨conns, acc, pf, pc, post⟩ n)
      by_cases hc : conns.any (fun c => c.node = n) = true
      · obtain ⟨hpf, hpc⟩ : pf = 0 ∧ pc = [] := by
          simpa [triggersTryConnect, idleNet, hc, List.isEmpty_iff] using hq
        subst hpf; subst hpc
        have hlen : (eraseFirst (fun c => c.node = n) conns).length + 1
            = conns.length :=
          eraseFirst_length _ _ (by simpa using hc)
        simp only [channel_stopped, if_pos hc, try_connect_eq]
        unfold boundInv at h ⊢
        simp only [List.length_nil] at h ⊢
        omega
      · simp only [channel_stopped, if_neg hc]
        exact h

lemma boundInv_run : ∀ (events : List PEvent) (s : ProtocolState),
    boundInv s → quietTrace s events = true → boundInv (runTrace s events)
  | [], _, h, _ => h
  | e :: es, s, h, hq => by
      have hq' : ((!(triggersTryConnect s e) || idleNet s) = true)
          ∧ quietTrace (step s e) es = true := by
        simpa [quietTrace] using hq
      exact boundInv_run es (step s e) (boundInv_step s e h hq'.1) hq'.2

/-- Claim C2 counterexample: a connect failure reposts `try_connect`
while 7 fetches from the first batch are still outstanding; the repost
issues 8 more, and after 9 successful connects `handle_connect` — which
never re-checks the bound — has pushed the outbound list to 9 > 8. -/
theorem c2_counterexample :
    (runTrace initialState overfillTrace).connections.length = 9
    ∧ ¬ (runTrace initialState overfillTrace).connections.length
        ≤ max_outbound := by
  decide

/-- Claim C2 as amended: `|outbound| ≤ max_outbound` holds at every
observable instant of every quiet execution — one in which each run of
the `try_connect` body (initial dispatch, posted repost, or the direct
call in `channel_stopped`) happens while no fetch_address callback or
connect attempt is in flight.  (Overlapping reposts violate the bound,
as the counterexample shows.) -/
theorem c2_outbound_bound (events : List PEvent)
    (h : quietTrace initialState events = true) :
    (runTrace initialState events).connections.length ≤ max_outbound := by
  have hinv : boundInv (runTrace initialState events) :=
    boundInv_run events initialState (by unfold boundInv; decide) h
  unfold boundInv at hinv
  omega

/-- Witness for the amended C2: a quiet three-event execution (one
dispatch, one fetch, one successful connect) keeps the bound. -/
theorem c2_outbound_bound_witness :
    quietTrace initialState
      [.tryConnect, .fetchResult 0 ⟨1, 8333⟩,
       .connectResult 0 1 ⟨1, 8333⟩] = true
    ∧ (runTrace initialState
        [.tryConnect, .fetchResult 0 ⟨1, 8333⟩,
         .connectResult 0 1 ⟨1, 8333⟩]).connections.length ≤ max_outbound :=
  ⟨by decide,
   c2_outbound_bound
     [.tryConnect, .fetchResult 0 ⟨1, 8333⟩, .connectResult 0 1 ⟨1, 8333⟩]
     (by decide)⟩
lemma dedupInv_step (s : ProtocolState) (e : PEvent) (h : dedupInv s)
    (hf : freshOk s e = true) : dedupInv (step s e) := by
  obtain ⟨conns, acc, pf, pc, post⟩ := s
  unfold dedupInv outboundKeys at h ⊢
  cases e with
  | tryConnect =>
      show List.Nodup
        ((try_connect ⟨conns, acc, pf, pc, post⟩).connections.map
          (fun c => addrKey c.address)
          ++ (try_connect ⟨conns, acc, pf, pc, post⟩).pendingConnect.map addrKey)
      rw [try_connect_eq]
      exact h
  | runPosted =>
      show List.Nodup
        (((if post > 0 then
            try_connect ⟨conns, acc, pf, pc, post - 1⟩
           else ⟨conns, acc, pf, pc, post⟩)).connections.map
          (fun c => addrKey c.address)
          ++ ((if post > 0 then
            try_connect ⟨conns, acc, pf, pc, post - 1⟩
           else ⟨conns, acc, pf, pc, post⟩)).pendingConnect.map addrKey)
      split
      · rw [try_connect_eq]
        exact h
      · exact h
  | fetchResult ec address =>
      show List.Nodup
        (((if pf > 0 then
            attempt_connect ⟨conns, acc, pf - 1, pc, post⟩ ec address
           else ⟨conns, acc, pf, pc, post⟩)).connections.map
          (fun c => addrKey c.address)
          ++ ((if pf > 0 then
            attempt_connect ⟨conns, acc, pf - 1, pc, post⟩ ec address
           else ⟨conns, acc, pf, pc, post⟩)).pendingConnect.map addrKey)
      by_cases hpf : pf > 0
      · rw [if_pos hpf]
        unfold attempt_connect
        by_cases hec : ec ≠ 0
        · rw [if_pos hec]
          exact h
        · rw [if_neg hec]
          have hec0 : ec = 0 := not_not.mp hec
          have hfresh : addrKey address ∉ pc.map addrKey := by
            subst hec0
            simpa [freshOk] using hf
          split
          · exact h
          · next hdup =>
              have hdup2 : ∀ x ∈ conns, x.address.ip = address.ip →
                  ¬ x.address.port = address.port := by
                simpa using hdup
              have hnotC : addrKey address ∉
                  conns.map (fun c => addrKey c.address) := by
                intro hk
                rcases List.mem_map.mp hk with ⟨c, hc, hkey⟩
                have hip : c.address.ip = address.ip ∧
                    c.address.port = address.port := by
                  unfold addrKey at hkey
                  exact ⟨congrArg Prod.fst hkey, congrArg Prod.snd hkey⟩
                exact hdup2 c hc hip.1 hip.2
              show List.Nodup
                (conns.map (fun c => addrKey c.address)
                  ++ (pc ++ [address]).map addrKey)
              rw [List.map_append]
              rw [← List.append_assoc]
              refine List.Nodup.append h (by simp) ?_
              intro a ha hmem
              rcases List.mem_singleton.mp hmem with rfl
              rcases List.mem_append.mp ha with hC | hP
              · exact hnotC hC
              · exact hfresh hP
      · rw [if_neg hpf]
        exact h
  | connectResult ec node address =>
      show List.Nodup
        (((if address ∈ pc then
            handle_connect ⟨conns, acc, pf,
              eraseFirst (fun a => a = address) pc, post⟩ ec node address
           else ⟨conns, acc, pf, pc, post⟩)).connections.map
          (fun c => addrKey c.address)
          ++ ((if address ∈ pc then
            handle_connect ⟨conns, acc, pf,
              eraseFirst (fun a => a = address) pc, post⟩ ec node address
           else ⟨conns, acc, pf, pc, post⟩)).pendingConnect.map addrKey)
      by_cases hmem : address ∈ pc
      · rw [if_pos hmem]
        unfold handle_connect
        split
        · have hsub : List.Sublist
              ((eraseFirst (fun a => a = address) pc).map addrKey)
              (pc.map addrKey) :=
            List.Sublist.map addrKey (eraseFirst_sublist _ pc)
          exact List.Nodup.sublist (hsub.append_left _) h
        · have hperm := map_perm_eraseFirst_eq addrKey address pc hmem
          have hperm2 := List.Perm.append_left
            (conns.map (fun c => addrKey c.address)) hperm
          have h2 := hperm2.nodup h
          show List.Nodup
            ((conns ++ [ConnectionInfo.mk address node]).map
              (fun c => addrKey c.address)
              ++ (eraseFirst (fun a => a = address) pc).map addrKey)
          rw [List.map_append]
          rw [List.append_assoc]
          simpa using h2
      · rw [if_neg hmem]
        exact h
  | acceptResult ec node =>
      show List.Nodup
        ((handle_accept ⟨conns, acc, pf, pc, post⟩ ec node).connections.map
          (fun c => addrKey c.address)
          ++ (handle_accept ⟨conns, acc, pf, pc,
              post⟩ ec node).pendingConnect.map addrKey)
      unfold handle_accept
      split
      · exact h
      · exact h
  | channelStop n =>
      show List.Nodup
        ((channel_stopped ⟨conns, acc, pf, pc, post⟩ n).connections.map
          (fun c => addrKey c.address)
          ++ (channel_stopped ⟨conns, acc, pf, pc,
              post⟩ n).pendingConnect.map addrKey)
      by_cases hc : conns.any (fun c => c.node = n) = true
      · simp only [channel_stopped, if_pos hc, try_connect_eq]
        have hsub : List.Sublist
            ((eraseFirst (fun c => c.node = n) conns).map
              (fun c => addrKey c.address))
            (conns.map (fun c => addrKey c.address)) :=
          List.Sublist.map _ (eraseFirst_sublist _ conns)
        exact List.Nodup.sublist (hsub.append_right _) h
      · simp only [channel_stopped, if_neg hc]
        exact h

lemma dedupInv_run : ∀ (events : List PEvent) (s : ProtocolState),
    dedupInv s → freshTrace s events = true → dedupInv (runTrace s events)
  | [], _, h, _ => h
  | e :: es, s, h, hf => by
      have hf' : freshOk s e = true ∧ freshTrace (step s e) es = true := by
        have hh : (freshOk s e && freshTrace (step s e) es) = true := hf
        simp only [Bool.and_eq_true] at hh
        exact hh
      exact dedupInv_run es (step s e) (dedupInv_step s e h hf'.1) hf'.2

/-- Claim C3 counterexample: the host store returns the same address to
two outstanding fetches; both pass the pre-connect dedup scan (the
outbound list is still empty) and both connects succeed, so the
outbound list ends up with two entries sharing (ip, port) = (1, 8333). -/
theorem c3_counterexample :
    (runTrace initialState duplicateTrace).connections.map
      (fun c => addrKey c.address) = [(1, 8333), (1, 8333)]
    ∧ ¬ List.Nodup ((runTrace initialState duplicateTrace).connections.map
        (fun c => addrKey c.address)) := by
  decide

/-- Claim C3 as amended: no two outbound entries share (ip, port) in
every fresh execution — one in which the host store never hands a
successful fetch an address whose (ip, port) equals that of a connect
attempt still in flight.  (Two concurrent fetches of the same address
defeat the scan, as the counterexample shows.) -/
theorem c3_outbound_nodup (events : List PEvent)
    (h : freshTrace initialState events = true) :
    List.Nodup ((runTrace initialState events).connections.map
      (fun c => addrKey c.address)) := by
  have hinv : dedupInv (runTrace initialState events) :=
    dedupInv_run events initialState
      (by unfold dedupInv outboundKeys; simp [initialState]) h
  unfold dedupInv outboundKeys at hinv
  exact hinv.of_append_left

/-- Witness for the amended C3: a fresh four-event execution with two
distinct addresses keeps the outbound keys duplicate-free. -/
theorem c3_outbound_nodup_witness :
    freshTrace initialState
      [.tryConnect, .fetchResult 0 ⟨1, 8333⟩, .fetchResult 0 ⟨2, 8333⟩,
       .connectResult 0 1 ⟨1, 8333⟩] = true
    ∧ List.Nodup ((runTrace initialState
        [.tryConnect, .fetchResult 0 ⟨1, 8333⟩, .fetchResult 0 ⟨2, 8333⟩,
         .connectResult 0 1 ⟨1, 8333⟩]).connections.map
        (fun c => addrKey c.address)) :=
  ⟨by decide,
   c3_outbound_nodup
     [.tryConnect, .fetchResult 0 ⟨1, 8333⟩, .fetchResult 0 ⟨2, 8333⟩,
      .connectResult 0 1 ⟨1, 8333⟩] (by decide)⟩
